import Mathlib

/-!
Verification of the `filmfinder` movie recommender
(`src/models/MovieRecommender.py`) against its natural-language
specification.

The Python code is shallowly embedded as follows.

* `Movie` mirrors the frozen dataclass `Movie` (six fields).  The Python
  `float` rating is modelled as an exact rational.
* `MovieRecommender` mirrors the mutable dataclass: `api_key`,
  `movie_data` (the pandas `DataFrame` of movies, modelled as an ordered
  `List Movie`), and `cosine_sim_matrix` (`None` until built, modelled as
  `Option`).
* `CountVectorizer().fit_transform` (scikit-learn, called on the `genre`
  column) is embedded by `tokenize` (the default word analyzer:
  lower-case, tokens are maximal runs of word characters of length at
  least two), `rawVocab` (the vocabulary accumulated in first-seen
  order), `vocabOf` (scikit-learn sorts the vocabulary alphabetically
  before assigning column indices), and `countVector`.
  `fit_transform` raises `ValueError` on an empty vocabulary; the
  embedding returns `GenError.emptyVocabulary` there.
* `cosine_similarity` produces, for feature vectors `u`, `v`, the value
  `dot u v / (‖u‖ * ‖v‖)`, with rows of zero norm left at `0`
  (sklearn's `normalize` keeps zero rows zero).  All entries are
  non-negative, so the matrix entry is represented order-faithfully by
  its *square* `simSq u v = (dot u v)^2 / (‖u‖^2 * ‖v‖^2)` — an exact
  rational.  `x ↦ x^2` is a strictly monotone bijection of `[0,1]`, so
  ranking, ties, the bounds `0` and `1`, and symmetry are all preserved
  exactly by this representation.
* `recommend` mirrors the Python method branch by branch, including the
  `ValueError` when the matrix is absent, the uncaught pandas `KeyError`
  when the store is empty (an empty `DataFrame` has no `title` column),
  and the caught `IndexError` (printed and `None` returned) when the
  title is absent.  `sorted(..., key=lambda x: x[1], reverse=True)` is a
  stable descending sort; a stable sort's output is uniquely determined
  by the key order and the input order, so the insertion sort
  `sortDesc` below computes exactly the same list.
* Persistence (`to_json` / `read_json` with `orient="records"`) is
  embedded by an exact record-structured serialization: `movieToRecord`
  writes the six named fields in order; loading first applies
  `read_json`'s default dtype inference (`coerceColumns`: an object
  column whose every value parses as a number — `isNumericString`,
  modelling the per-element `float(...)` conversion — is coerced to
  float64, mangling string fields such as a title "300" into numbers),
  then `parseRecords` decodes the surviving records back by field name.
  Numeric values are modelled exactly.
-/

/-- The frozen `Movie` dataclass: title, year, genre, director, plot, rating. -/
structure Movie where
  title : String
  year : Int
  genre : String
  director : String
  plot : String
  rating : ℚ
deriving DecidableEq, Repr

/-- Default movie used only as a `getD` fallback (never observable in proofs). -/
def defaultMovie : Movie := ⟨"", 0, "", "", "", 0⟩

deriving instance DecidableEq for Except

/-- The `MovieRecommender` dataclass: an API key, the movie `DataFrame`
(an ordered list of records), and the similarity matrix (`None` until
`generate_similarity_matrix` runs). -/
structure MovieRecommender where
  api_key : String
  movie_data : List Movie
  cosine_sim_matrix : Option (List (List ℚ))
deriving DecidableEq, Repr

/-! ### Tokenizer (CountVectorizer's default word analyzer) -/

/-- A word character for the default token pattern `(?u)\b\w\w+\b`
(letters, digits, underscore; the genre strings are ASCII). -/
def isWordChar (c : Char) : Bool := c.isAlphanum || c = '_'

/-- Maximal runs of word characters in a character list.  `acc` holds the
current run, reversed. -/
def wordRuns : List Char → List Char → List (List Char)
  | [], acc => if acc.isEmpty then [] else [acc.reverse]
  | c :: cs, acc =>
    if isWordChar c then wordRuns cs (c :: acc)
    else if acc.isEmpty then wordRuns cs [] else acc.reverse :: wordRuns cs []

/-- CountVectorizer's default analyzer: lower-case the document, split it
into maximal word-character runs, keep only tokens of length ≥ 2.
(Lower-casing is applied per character; the genre strings are ASCII.) -/
def tokenize (s : String) : List String :=
  ((wordRuns (s.toList.map Char.toLower) []).filter
    (fun w => 2 ≤ w.length)).map List.asString

/-! ### Vocabulary and count vectors -/

/-- Append a token to the vocabulary if it is not already present. -/
def addTok (acc : List String) (t : String) : List String :=
  if t ∈ acc then acc else acc ++ [t]

/-- The vocabulary in first-seen order, scanning documents in store order
(this is the order in which `CountVectorizer._count_vocab` first meets
each token). -/
def rawVocab (docs : List (List String)) : List String :=
  docs.foldl (fun acc d => d.foldl addTok acc) []

/-- The token lists of the store's genre column (after `fillna("")`,
which is the identity here since `genre` is a string field). -/
def genreDocs (records : List Movie) : List (List String) :=
  records.map (fun m => tokenize m.genre)

/-- Lexicographic strict comparison of two strings by code point, on
their character lists (the order Python string `<` uses; written out
directly so the kernel can evaluate it). -/
def strLtb : List Char → List Char → Bool
  | [], [] => false
  | [], _ :: _ => true
  | _ :: _, [] => false
  | a :: as, b :: bs =>
    if a < b then true else if b < a then false else strLtb as bs

/-- Boolean `≤` on strings, via `strLtb`. -/
def strLeb (a b : String) : Bool := !(strLtb b.data a.data)

/-- Insert a string into a `strLeb`-sorted list, keeping it sorted. -/
def insertStr (s : String) : List String → List String
  | [] => [s]
  | t :: ts => if strLeb s t then s :: t :: ts else t :: insertStr s ts

/-- Insertion sort of strings in ascending lexicographic order. -/
def sortStrings : List String → List String
  | [] => []
  | s :: ss => insertStr s (sortStrings ss)

/-- The vocabulary with its final column order: scikit-learn's
`_sort_features` sorts the vocabulary alphabetically before assigning
column indices. -/
def vocabOf (records : List Movie) : List String :=
  sortStrings (rawVocab (genreDocs records))

/-- Modelled from the spec: the column order the specification asserts,
namely "a stable column index in first-seen order".  Used only to compare
against the code's `vocabOf`. -/
def firstSeenVocab (records : List Movie) : List String :=
  rawVocab (genreDocs records)

/-- The count vector of one document over a vocabulary: one column per
vocabulary token, holding the token's number of occurrences. -/
def countVector (voc : List String) (toks : List String) : List ℕ :=
  voc.map (fun t => toks.count t)

/-- The feature vectors of the store: each record's genre tokens counted
over the shared (sorted) vocabulary. -/
def featureVectors (records : List Movie) : List (List ℕ) :=
  (genreDocs records).map (countVector (vocabOf records))

/-! ### Cosine similarity -/

/-- Dot product of two count vectors (componentwise, excess length ignored;
the vectors used all share the vocabulary's length). -/
def dot : List ℕ → List ℕ → ℕ
  | a :: as, b :: bs => a * b + dot as bs
  | _, _ => 0

/-- The squared cosine similarity of two count vectors, with sklearn's
zero-norm convention: a vector of zero norm has similarity `0` with
everything (including itself).  Since `dot u v ≥ 0`, the true cosine is
the square root of this value, and squaring is an order isomorphism of
`[0,1]`. -/
def simSq (u v : List ℕ) : ℚ :=
  if dot u u = 0 ∨ dot v v = 0 then 0
  else ((dot u v : ℚ)) ^ 2 / ((dot u u : ℚ) * (dot v v : ℚ))

/-- The dense pairwise similarity matrix `cosine_similarity(G, G)`,
entry `(i, j)` being (the squared representation of) the cosine of
vectors `i` and `j`. -/
def simMatrix (vecs : List (List ℕ)) : List (List ℚ) :=
  vecs.map (fun u => vecs.map (fun v => simSq u v))

/-- Matrix entry access with the usual `0` default. -/
def entry (M : List (List ℚ)) (i j : ℕ) : ℚ := (M.getD i []).getD j 0

/-! ### generate_similarity_matrix -/

/-- The two `ValueError`s the build step can raise: the explicit
"Movie data is empty" check, and `CountVectorizer`'s
"empty vocabulary" complaint. -/
inductive GenError where
  | emptyDataset
  | emptyVocabulary
deriving DecidableEq, Repr

/-- `generate_similarity_matrix`: raise on an empty store, raise when the
vectorizer finds an empty vocabulary, otherwise store the cosine
similarity matrix of the genre feature vectors. -/
def generate_similarity_matrix (r : MovieRecommender) :
    Except GenError MovieRecommender :=
  if r.movie_data.isEmpty then .error .emptyDataset
  else if (vocabOf r.movie_data).isEmpty then .error .emptyVocabulary
  else .ok { r with
    cosine_sim_matrix := some (simMatrix (featureVectors r.movie_data)) }

/-! ### recommend -/

/-- Stable insertion of a scored index into a descending-sorted list:
`p` goes before the first element whose score is `≤` its own, hence after
every earlier-inserted element with a strictly greater score and before
every element with an equal or smaller score. -/
def insertDesc (p : ℕ × ℚ) : List (ℕ × ℚ) → List (ℕ × ℚ)
  | [] => [p]
  | q :: qs => if q.2 ≤ p.2 then p :: q :: qs else q :: insertDesc p qs

/-- Stable descending sort by score, as performed by Python's
`sorted(..., key=lambda x: x[1], reverse=True)` (Timsort is stable and
`reverse=True` preserves the original order of tied keys). -/
def sortDesc : List (ℕ × ℚ) → List (ℕ × ℚ)
  | [] => []
  | p :: ps => insertDesc p (sortDesc ps)

/-- The store indices `recommend` extracts from a similarity row:
`enumerate`, stable-sort descending by score, slice `[1 : n+1]`, keep the
indices. -/
def topIndices (row : List ℚ) (n : ℕ) : List ℕ :=
  (((sortDesc row.enum).drop 1).take n).map Prod.fst

/-- The total strict order a stable descending sort realises on scored
indices: strictly greater score first; on equal scores, the smaller
(earlier-inserted) index first. -/
def scoreOrd (x y : ℕ × ℚ) : Prop :=
  y.2 < x.2 ∨ (x.2 = y.2 ∧ x.1 < y.1)

/-- The observable outcomes of `recommend`: the `ValueError` raised when
the matrix was never generated; the uncaught pandas `KeyError` raised by
`movie_data["title"]` on an empty frame (an empty `DataFrame` has no
columns); the caught `IndexError` ("Movie not found" printed, `None`
returned); or the recommended titles. -/
inductive RecommendResult where
  | notBuilt
  | keyError
  | notFound
  | found (titles : List String)
deriving DecidableEq, Repr

/-- `recommend`: mirror of the Python method.  The state component of the
result is the recommender after the call — the method writes no field of
`self`, so every branch returns `r` unchanged. -/
def recommend (r : MovieRecommender) (movie_title : String) (n : ℕ) :
    RecommendResult × MovieRecommender :=
  match r.cosine_sim_matrix with
  | none => (.notBuilt, r)
  | some M =>
    if r.movie_data.isEmpty then (.keyError, r)
    else
      match r.movie_data.findIdx? (fun m => m.title == movie_title) with
      | none => (.notFound, r)
      | some movie_index =>
        match M.get? movie_index with
        | none => (.notFound, r)
        | some row =>
          match (topIndices row n).mapM (fun j => r.movie_data.get? j) with
          | none => (.notFound, r)
          | some ms => (.found (ms.map Movie.title), r)

/-! ### enrich_dataset, save_dataset, load_dataset -/

/-- `enrich_dataset`: fetch every truthy (non-empty) requested title via
the external OMDb collaborator and keep the successful results, in
order.  The fetch is the external black box, passed as a function. -/
def enrich_dataset (r : MovieRecommender) (movie_title : List String)
    (fetch : String → Option Movie) : MovieRecommender :=
  { r with movie_data :=
      (movie_title.filter (fun t => !(t == ""))).filterMap fetch }

/-- Trim ASCII whitespace from both ends of a character list. -/
def trimWs (cs : List Char) : List Char :=
  ((cs.dropWhile Char.isWhitespace).reverse.dropWhile Char.isWhitespace).reverse

/-- Strip one leading sign character. -/
def dropSign : List Char → List Char
  | c :: cs => if c = '+' || c = '-' then cs else c :: cs
  | [] => []

/-- Consume leading decimal digits: how many there were, and the rest. -/
def takeDigits : List Char → ℕ × List Char
  | c :: cs =>
    if c.isDigit then
      let p := takeDigits cs
      (p.1 + 1, p.2)
    else (0, c :: cs)
  | [] => (0, [])

/-- An optional exponent that must consume the whole remainder: either
nothing, or `e` followed by an optional sign and at least one digit
(the input is already lower-cased). -/
def expPart : List Char → Bool
  | [] => true
  | c :: cs =>
    if c = 'e' then
      let p := takeDigits (dropSign cs)
      (p.1 != 0) && p.2.isEmpty
    else false

/-- A decimal mantissa — digits, an optional point, more digits, at
least one digit in total — followed by an optional exponent, consuming
the whole input. -/
def mantissa (cs : List Char) : Bool :=
  let p := takeDigits cs
  match p.2 with
  | '.' :: r =>
    let q := takeDigits r
    (p.1 + q.1 != 0) && expPart q.2
  | r => (p.1 != 0) && expPart r

/-- Does pandas' dtype inference parse this string as a number?  Models
the per-element `float(...)` conversion `astype("float64")` performs on
an object column: surrounding whitespace, an optional sign, then either
a decimal mantissa with optional exponent or one of the spellings
`inf`, `infinity`, `nan` (case-insensitive).  (Python's underscore
digit separators are not modelled.) -/
def isNumericString (s : String) : Bool :=
  let cs := dropSign ((trimWs s.data).map Char.toLower)
  cs == "inf".data || cs == "infinity".data || cs == "nan".data ||
    mantissa cs

/-- One JSON scalar as written by `to_json` (numbers modelled exactly),
plus the result of pandas' dtype inference on loading: `jfloat s`
stands for the IEEE-754 double that an all-numeric string column's
value `s` is coerced to by `read_json`'s default `dtype` handling.  Its
numeric value is kept symbolic: nothing downstream depends on it, only
on the fact that the field is no longer a string. -/
inductive JVal where
  | jstr (s : String)
  | jint (n : Int)
  | jnum (q : ℚ)
  | jfloat (s : String)
deriving DecidableEq, Repr

/-- The record holds, at key `k`, a string that pandas' inference
parses as a number. -/
def numericAt (rec : List (String × JVal)) (k : String) : Bool :=
  match rec.lookup k with
  | some (JVal.jstr s) => isNumericString s
  | _ => false

/-- pandas coerces an object (string) column to float64 exactly when
every value in the column parses as a number (`astype` raises on the
first failure and the column is then left alone). -/
def colIsNumeric (file : List (List (String × JVal))) (k : String) : Bool :=
  file.all (fun rec => numericAt rec k)

/-- `read_json`'s default dtype inference over a decoded record file:
every string entry of an all-numeric string column is coerced to the
number it parses as; every other entry is untouched.  (Columns that are
already numeric stay numeric and are modelled exactly.) -/
def coerceColumns (file : List (List (String × JVal))) :
    List (List (String × JVal)) :=
  file.map (fun rec => rec.map (fun p =>
    match p with
    | (k, JVal.jstr s) =>
      if colIsNumeric file k then (k, JVal.jfloat s) else (k, JVal.jstr s)
    | other => other))

/-- One serialized record: `to_json(orient="records")` writes each movie
as an object with the six named fields. -/
def movieToRecord (m : Movie) : List (String × JVal) :=
  [("title", .jstr m.title), ("year", .jint m.year), ("genre", .jstr m.genre),
   ("director", .jstr m.director), ("plot", .jstr m.plot),
   ("rating", .jnum m.rating)]

/-- Read a string field by name. -/
def getStr (rec : List (String × JVal)) (k : String) : Option String :=
  match rec.lookup k with
  | some (JVal.jstr s) => some s
  | _ => none

/-- Read an integer field by name. -/
def getInt (rec : List (String × JVal)) (k : String) : Option Int :=
  match rec.lookup k with
  | some (JVal.jint n) => some n
  | _ => none

/-- Read a numeric field by name. -/
def getRat (rec : List (String × JVal)) (k : String) : Option ℚ :=
  match rec.lookup k with
  | some (JVal.jnum q) => some q
  | _ => none

/-- Decode one serialized record back into a `Movie` (all six fields must
be present with their types). -/
def recordToMovie (rec : List (String × JVal)) : Option Movie :=
  match getStr rec "title", getInt rec "year", getStr rec "genre",
        getStr rec "director", getStr rec "plot", getRat rec "rating" with
  | some t, some y, some g, some d, some p, some ra => some ⟨t, y, g, d, p, ra⟩
  | _, _, _, _, _, _ => none

/-- Decode a whole record file, in order, into the typed store.  This
runs after dtype inference: a field a numeric column coercion turned
into a `jfloat` is no longer a string and makes the record (hence the
file) fail to decode as a `Movie`. -/
def parseRecords : List (List (String × JVal)) → Option (List Movie)
  | [] => some []
  | rec :: recs =>
    match recordToMovie rec, parseRecords recs with
    | some m, some ms => some (m :: ms)
    | _, _ => none

/-- `save_dataset`: serialize the store as a record-oriented file,
preserving row order. -/
def save_dataset (r : MovieRecommender) : List (List (String × JVal)) :=
  r.movie_data.map movieToRecord

/-- `load_dataset`: run `read_json`'s default dtype inference over the
decoded file, then decode the (possibly coerced) records and replace
the store wholesale; the similarity matrix is left untouched.  `none`
models a loaded frame that no longer fits the `Movie` schema because an
all-numeric string column was mangled into numbers. -/
def load_dataset (r : MovieRecommender) (file : List (List (String × JVal))) :
    Option MovieRecommender :=
  (parseRecords (coerceColumns file)).map
    (fun ms => { r with movie_data := ms })

/-- A small sample store used to instantiate universally quantified
theorems at a concrete input: two overlapping genre records and one
record whose genre has no tokens (a zero feature vector). -/
def c4Store : List Movie :=
  [⟨"A", 1, "Action Drama", "", "", 0⟩, ⟨"B", 2, "Drama", "", "", 0⟩,
   ⟨"C", 3, "", "", "", 0⟩]

/-! ## Helper lemmas -/

/-- Decoding is a retraction of encoding on a single record. -/
lemma recordToMovie_movieToRecord (m : Movie) :
    recordToMovie (movieToRecord m) = some m := rfl

/-- Decoding is a retraction of encoding on a whole record file. -/
lemma parseRecords_map_movieToRecord (ms : List Movie) :
    parseRecords (ms.map movieToRecord) = some ms := by
  induction ms with
  | nil => rfl
  | cons m ms ih =>
    simp [parseRecords, recordToMovie_movieToRecord, ih]

/-- A fold of `addTok` over token-free documents adds nothing. -/
lemma foldl_addTok_nil_of (docs : List (List String)) (acc : List String)
    (h : ∀ d ∈ docs, d = []) :
    docs.foldl (fun acc d => d.foldl addTok acc) acc = acc := by
  induction docs generalizing acc with
  | nil => rfl
  | cons d ds ih =>
    have hd : d = [] := h d (by simp)
    subst hd
    simpa using ih acc (fun d hd => h d (by simp [hd]))

/-! ## Claims -/

/-- Claim C9: building the similarity matrix fails with the
empty-dataset error exactly when the store is empty; a non-empty store
never produces that error (it either succeeds or fails with the distinct
empty-vocabulary error). -/
theorem claimC9 (r : MovieRecommender) :
    generate_similarity_matrix r = Except.error GenError.emptyDataset ↔
      r.movie_data = [] := by
  cases hd : r.movie_data with
  | nil => simp [generate_similarity_matrix, hd]
  | cons m ms =>
    have hne : (m :: ms).isEmpty = false := rfl
    constructor
    · intro h
      unfold generate_similarity_matrix at h
      rw [hd, hne] at h
      simp only [Bool.false_eq_true, if_false] at h
      split at h <;> cases h
    · intro h
      cases h

/-- Claim C10: `recommend` never mutates the recommender — on every
branch (matrix missing, empty store, title missing, success) the movie
store and the similarity matrix are exactly what they were before the
call. -/
theorem claimC10 (r : MovieRecommender) (movie_title : String) (n : ℕ) :
    (recommend r movie_title n).2.movie_data = r.movie_data ∧
    (recommend r movie_title n).2.cosine_sim_matrix = r.cosine_sim_matrix := by
  suffices h : (recommend r movie_title n).2 = r by
    rw [h]; exact ⟨rfl, rfl⟩
  unfold recommend
  repeat' split
  all_goals rfl

/-- When every string column of a saved store keeps at least one value
pandas cannot parse as a number, dtype inference leaves the file
untouched. -/
lemma coerceColumns_save (r : MovieRecommender)
    (h1 : colIsNumeric (save_dataset r) "title" = false)
    (h2 : colIsNumeric (save_dataset r) "genre" = false)
    (h3 : colIsNumeric (save_dataset r) "director" = false)
    (h4 : colIsNumeric (save_dataset r) "plot" = false) :
    coerceColumns (save_dataset r) = save_dataset r := by
  have hs : save_dataset r = r.movie_data.map movieToRecord := rfl
  rw [hs] at h1 h2 h3 h4
  unfold coerceColumns
  rw [hs, List.map_map]
  apply List.map_congr_left
  intro m hm
  simp [movieToRecord, h1, h2, h3, h4]

/-- Claim C8 counterexample: saving the store whose only record is the
movie titled "300" and loading it back does NOT reproduce the store —
the title column consists entirely of numeric strings, so `read_json`'s
default dtype inference coerces it to numbers and the loaded frame no
longer matches the saved records (`load(save(store)) ≠ store`). -/
theorem claimC8_counterexample :
    load_dataset ⟨"k", [⟨"300", 1962, "Action", "d", "p", 7⟩], none⟩
      (save_dataset ⟨"k", [⟨"300", 1962, "Action", "d", "p", 7⟩], none⟩) =
      none ∧
    (none : Option MovieRecommender) ≠
      some ⟨"k", [⟨"300", 1962, "Action", "d", "p", 7⟩], none⟩ := by
  refine ⟨by decide, by decide⟩

/-- Claim C8 (amended): loading a dataset saved from a store reproduces
the same store — identical records (all six fields) in identical order,
and the rest of the recommender untouched — provided the store is empty
or each of its four string columns (title, genre, director, plot)
contains at least one value that pandas does not parse as a number.  A
string column consisting entirely of numeric strings is coerced to
numbers by `read_json`'s default dtype inference and breaks the round
trip. -/
theorem claimC8_amended (r : MovieRecommender)
    (h : r.movie_data = [] ∨
      (colIsNumeric (save_dataset r) "title" = false ∧
       colIsNumeric (save_dataset r) "genre" = false ∧
       colIsNumeric (save_dataset r) "director" = false ∧
       colIsNumeric (save_dataset r) "plot" = false)) :
    load_dataset r (save_dataset r) = some r := by
  rcases h with h | ⟨h1, h2, h3, h4⟩
  · obtain ⟨k, data, mat⟩ := r
    subst h
    rfl
  · rw [load_dataset, coerceColumns_save r h1 h2 h3 h4,
        show save_dataset r = r.movie_data.map movieToRecord from rfl,
        parseRecords_map_movieToRecord]
    obtain ⟨k, data, mat⟩ := r
    rfl

/-- Claim C8 amended, witness: a one-record store with ordinary
non-numeric strings in every string field round-trips exactly. -/
theorem claimC8_amended_witness :
    load_dataset ⟨"k", [⟨"A", 1, "g", "d", "p", 0⟩], none⟩
      (save_dataset ⟨"k", [⟨"A", 1, "g", "d", "p", 0⟩], none⟩) =
      some ⟨"k", [⟨"A", 1, "g", "d", "p", 0⟩], none⟩ :=
  claimC8_amended ⟨"k", [⟨"A", 1, "g", "d", "p", 0⟩], none⟩
    (Or.inr (by decide))

/-- Claim C2 counterexample: a non-empty store in which every record has
empty genre text makes the build step RAISE — `CountVectorizer` refuses
an empty vocabulary — rather than succeed with a zero matrix as the
claim asserts. -/
theorem claimC2_counterexample :
    generate_similarity_matrix ⟨"k", [⟨"A", 2000, "", "", "", 0⟩], none⟩ =
      Except.error GenError.emptyVocabulary := by decide

/-- Claim C2 (amended): for every non-empty store whose records all have
token-free genre text, building the similarity matrix fails with the
vectorizer's empty-vocabulary error (it does not succeed, and it does
not produce a zero matrix). -/
theorem claimC2_amended (r : MovieRecommender) (hne : r.movie_data ≠ [])
    (hall : ∀ m ∈ r.movie_data, tokenize m.genre = []) :
    generate_similarity_matrix r = Except.error GenError.emptyVocabulary := by
  have hraw : rawVocab (genreDocs r.movie_data) = [] := by
    unfold rawVocab
    apply foldl_addTok_nil_of
    intro d hd
    unfold genreDocs at hd
    rw [List.mem_map] at hd
    obtain ⟨m, hm, rfl⟩ := hd
    exact hall m hm
  have hvoc : vocabOf r.movie_data = [] := by
    unfold vocabOf
    rw [hraw]
    rfl
  unfold generate_similarity_matrix
  rw [if_neg (by simp [hne]), if_pos (by rw [hvoc]; rfl)]

/-- Claim C2 amended, witness: a one-record store whose genre "a" yields
no token (the analyzer keeps only tokens of length ≥ 2). -/
theorem claimC2_amended_witness :
    generate_similarity_matrix ⟨"k", [⟨"A", 2000, "a", "", "", 0⟩], none⟩ =
      Except.error GenError.emptyVocabulary :=
  claimC2_amended ⟨"k", [⟨"A", 2000, "a", "", "", 0⟩], none⟩
    (by decide) (by decide)

/-- Claim C6 counterexample: loading a dataset that contains two records
titled "A" and one record with an empty title populates the store with
exactly those records — the store ends up with a duplicated title and an
empty title, so neither uniqueness nor non-emptiness of titles is an
invariant of population. -/
theorem claimC6_counterexample :
    (load_dataset ⟨"k", [], none⟩
        (List.map movieToRecord
          [⟨"A", 1, "g", "d", "p", 0⟩, ⟨"A", 1, "g", "d", "p", 0⟩,
           ⟨"", 2, "h", "e", "q", 0⟩])).map
      (fun s => s.movie_data.map Movie.title) = some ["A", "A", ""] ∧
    ¬ (["A", "A", ""] : List String).Nodup ∧ ("" ∈ ["A", "A", ""]) := by
  refine ⟨by decide, by decide, by decide⟩

/-- Claim C6 (amended): every record stored by enrichment is the result
of a successful fetch of some non-empty requested title — failed fetches
are skipped and never stored as partial records — but population
performs no deduplication and no title validation. -/
theorem claimC6_amended (r : MovieRecommender) (titles : List String)
    (fetch : String → Option Movie) (m : Movie)
    (hm : m ∈ (enrich_dataset r titles fetch).movie_data) :
    ∃ t, t ∈ titles ∧ t ≠ "" ∧ fetch t = some m := by
  unfold enrich_dataset at hm
  dsimp only at hm
  rw [List.mem_filterMap] at hm
  obtain ⟨t, ht, hf⟩ := hm
  rw [List.mem_filter] at ht
  refine ⟨t, ht.1, ?_, hf⟩
  simpa using ht.2

/-- Claim C6 amended, witness: fetching the single title "A" with a
collaborator that resolves it stores the fetched record, which indeed
originates from the non-empty title "A". -/
theorem claimC6_amended_witness :
    ∃ t, t ∈ ["A"] ∧ t ≠ "" ∧
      (fun s => if s == "A" then some (⟨"A", 1, "g", "d", "p", 0⟩ : Movie)
                else none) t = some ⟨"A", 1, "g", "d", "p", 0⟩ :=
  claimC6_amended ⟨"k", [], none⟩ ["A"]
    (fun s => if s == "A" then some ⟨"A", 1, "g", "d", "p", 0⟩ else none)
    ⟨"A", 1, "g", "d", "p", 0⟩ (by decide)

/-- Claim C7 counterexample: on the single record with genre text
"Drama, Action" the code assigns column 0 to "action" and column 1 to
"drama" (scikit-learn sorts the vocabulary alphabetically), while the
claim's first-seen order would assign column 0 to "drama". -/
theorem claimC7_counterexample :
    vocabOf [⟨"A", 0, "Drama, Action", "", "", 0⟩] = ["action", "drama"] ∧
    firstSeenVocab [⟨"A", 0, "Drama, Action", "", "", 0⟩] =
      ["drama", "action"] ∧
    vocabOf [⟨"A", 0, "Drama, Action", "", "", 0⟩] ≠
      firstSeenVocab [⟨"A", 0, "Drama, Action", "", "", 0⟩] := by
  refine ⟨by decide, by decide, by decide⟩

/-- Claim C1, failing run: on the store [A: "Action", B: "Action"] with
its freshly built similarity matrix, `recommend "B" 1` returns `["B"]` —
the query title itself — because the code drops only position 0 of the
stable descending sort and the tied record A (equal score 1, smaller
index) occupies that position, not the query.  The claim's guarantee
that the output never contains the query title is violated (the length
part, `min(1, 2-1) = 1`, does hold here). -/
theorem claimC1_code_bug :
    generate_similarity_matrix
        ⟨"k", [⟨"A", 2020, "Action", "", "", 0⟩,
               ⟨"B", 2021, "Action", "", "", 0⟩], none⟩ =
      Except.ok
        ⟨"k", [⟨"A", 2020, "Action", "", "", 0⟩,
               ⟨"B", 2021, "Action", "", "", 0⟩],
         some (simMatrix (featureVectors
           [⟨"A", 2020, "Action", "", "", 0⟩,
            ⟨"B", 2021, "Action", "", "", 0⟩]))⟩ ∧
    (recommend
        ⟨"k", [⟨"A", 2020, "Action", "", "", 0⟩,
               ⟨"B", 2021, "Action", "", "", 0⟩],
         some (simMatrix (featureVectors
           [⟨"A", 2020, "Action", "", "", 0⟩,
            ⟨"B", 2021, "Action", "", "", 0⟩]))⟩
      "B" 1).1 = RecommendResult.found ["B"] ∧
    "B" ∈ ["B"] := by
  refine ⟨by with_unfolding_all rfl, by with_unfolding_all rfl, by decide⟩

/-- Claim C3: on a recommender whose matrix was just built by
`generate_similarity_matrix` (so the matrix belongs to the current,
necessarily non-empty store), querying any title that no stored record
bears yields the not-found outcome — the caught `IndexError` branch that
prints "Movie not found" and returns `None`, an explicit error value
distinct from every list of titles. -/
theorem claimC3 (r0 r : MovieRecommender) (movie_title : String) (n : ℕ)
    (hgen : generate_similarity_matrix r0 = Except.ok r)
    (habs : ∀ m ∈ r.movie_data, m.title ≠ movie_title) :
    (recommend r movie_title n).1 = RecommendResult.notFound := by
  unfold generate_similarity_matrix at hgen
  split at hgen
  · cases hgen
  · split at hgen
    · cases hgen
    · rename_i hne hvoc
      injection hgen with hr
      subst hr
      have hne' : r0.movie_data.isEmpty = false := by
        revert hne
        cases r0.movie_data.isEmpty <;> simp
      have hidx : r0.movie_data.findIdx? (fun m => m.title == movie_title)
          = none := by
        apply List.findIdx?_eq_none_iff.mpr
        intro m hm
        simpa using habs m hm
      simp only [recommend, hne', hidx, Bool.false_eq_true, if_false]

/-- Claim C3, witness: a one-record store with its built matrix, queried
for "Unknown". -/
theorem claimC3_witness :
    (recommend
        ⟨"k", [⟨"A", 0, "Action", "", "", 0⟩],
         some (simMatrix (featureVectors [⟨"A", 0, "Action", "", "", 0⟩]))⟩
      "Unknown" 5).1 = RecommendResult.notFound :=
  claimC3 ⟨"k", [⟨"A", 0, "Action", "", "", 0⟩], none⟩
    ⟨"k", [⟨"A", 0, "Action", "", "", 0⟩],
     some (simMatrix (featureVectors [⟨"A", 0, "Action", "", "", 0⟩]))⟩
    "Unknown" 5 (by with_unfolding_all rfl) (by decide)

/-! ## Similarity matrix properties (towards claim C4) -/

/-- The dot product with an empty left factor is zero. -/
lemma dot_nil_left (v : List ℕ) : dot [] v = 0 := by
  cases v <;> rfl

/-- The dot product is commutative. -/
lemma dot_comm (u : List ℕ) : ∀ v, dot u v = dot v u := by
  induction u with
  | nil => intro v; cases v <;> rfl
  | cons a as ih =>
    intro v
    cases v with
    | nil => rfl
    | cons b bs => simp [dot, ih, Nat.mul_comm]

/-- The dot product as a `Finset.range` sum over the shared indices. -/
lemma dot_cast_sum (u : List ℕ) :
    ∀ v, ((dot u v : ℕ) : ℚ) =
      ∑ i ∈ Finset.range (min u.length v.length),
        (u.getD i 0 : ℚ) * (v.getD i 0 : ℚ) := by
  induction u with
  | nil =>
    intro v
    simp [dot_nil_left]
  | cons a as ih =>
    intro v
    cases v with
    | nil => simp [dot]
    | cons b bs =>
      simp only [dot, List.length_cons, Nat.succ_min_succ,
        Finset.sum_range_succ']
      push_cast
      rw [ih bs]
      simp [List.getD_cons_succ, List.getD_cons_zero]
      ring

/-- Cauchy–Schwarz for the list dot product, in the squared rational
form: `(u·v)² ≤ (u·u)(v·v)`. -/
lemma dot_sq_le (u v : List ℕ) :
    ((dot u v : ℕ) : ℚ) ^ 2 ≤ ((dot u u : ℕ) : ℚ) * ((dot v v : ℕ) : ℚ) := by
  have hm : min u.length v.length ≤ u.length := min_le_left u.length v.length
  have hm' : min u.length v.length ≤ v.length := min_le_right u.length v.length
  rw [dot_cast_sum u v, dot_cast_sum u u, dot_cast_sum v v, min_self, min_self]
  calc (∑ i ∈ Finset.range (min u.length v.length),
          (u.getD i 0 : ℚ) * (v.getD i 0 : ℚ)) ^ 2
      ≤ (∑ i ∈ Finset.range (min u.length v.length), (u.getD i 0 : ℚ) ^ 2) *
        ∑ i ∈ Finset.range (min u.length v.length), (v.getD i 0 : ℚ) ^ 2 :=
        Finset.sum_mul_sq_le_sq_mul_sq _ _ _
    _ ≤ (∑ i ∈ Finset.range u.length, (u.getD i 0 : ℚ) ^ 2) *
        ∑ i ∈ Finset.range v.length, (v.getD i 0 : ℚ) ^ 2 := by
        apply mul_le_mul
        · exact Finset.sum_le_sum_of_subset_of_nonneg
            (Finset.range_subset.mpr hm) (fun i _ _ => sq_nonneg _)
        · exact Finset.sum_le_sum_of_subset_of_nonneg
            (Finset.range_subset.mpr hm') (fun i _ _ => sq_nonneg _)
        · exact Finset.sum_nonneg (fun i _ => sq_nonneg _)
        · exact Finset.sum_nonneg (fun i _ => sq_nonneg _)
    _ = (∑ i ∈ Finset.range u.length,
          (u.getD i 0 : ℚ) * (u.getD i 0 : ℚ)) *
        ∑ i ∈ Finset.range v.length,
          (v.getD i 0 : ℚ) * (v.getD i 0 : ℚ) := by
        simp [sq]

/-- Squared cosine similarity is symmetric. -/
lemma simSq_comm (u v : List ℕ) : simSq u v = simSq v u := by
  unfold simSq
  rw [dot_comm u v, mul_comm ((dot u u : ℕ) : ℚ) ((dot v v : ℕ) : ℚ)]
  exact if_congr or_comm rfl rfl

/-- Squared cosine similarity is non-negative. -/
lemma simSq_nonneg (u v : List ℕ) : 0 ≤ simSq u v := by
  unfold simSq
  split
  · exact le_refl 0
  · exact div_nonneg (sq_nonneg _)
      (mul_nonneg (Nat.cast_nonneg _) (Nat.cast_nonneg _))

/-- Squared cosine similarity is at most one. -/
lemma simSq_le_one (u v : List ℕ) : simSq u v ≤ 1 := by
  unfold simSq
  split
  · exact zero_le_one
  · rename_i h
    push_neg at h
    have hu : (0:ℚ) < ((dot u u : ℕ) : ℚ) := by
      exact_mod_cast Nat.pos_of_ne_zero h.1
    have hv : (0:ℚ) < ((dot v v : ℕ) : ℚ) := by
      exact_mod_cast Nat.pos_of_ne_zero h.2
    exact (div_le_one (mul_pos hu hv)).mpr (dot_sq_le u v)

/-- Self-similarity of a vector of non-zero norm is exactly one. -/
lemma simSq_self (u : List ℕ) (h : dot u u ≠ 0) : simSq u u = 1 := by
  unfold simSq
  rw [if_neg (by simp [h])]
  have hcast : ((dot u u : ℕ) : ℚ) ≠ 0 := Nat.cast_ne_zero.mpr h
  rw [sq]
  exact div_self (mul_ne_zero hcast hcast)

/-- A vector of zero norm has similarity zero with everything. -/
lemma simSq_zero_left (u v : List ℕ) (h : dot u u = 0) : simSq u v = 0 := by
  unfold simSq
  rw [if_pos (Or.inl h)]

/-- A right-hand empty vector has similarity zero with everything. -/
lemma simSq_nil_right (u : List ℕ) : simSq u [] = 0 := by
  have h : dot ([] : List ℕ) [] = 0 := rfl
  unfold simSq
  rw [if_pos (Or.inr h)]

/-- Every entry of `simMatrix vecs` is the squared cosine similarity of
the corresponding (defaulted) vectors. -/
lemma entry_simMatrix (vecs : List (List ℕ)) (i j : ℕ) :
    entry (simMatrix vecs) i j = simSq (vecs.getD i []) (vecs.getD j []) := by
  unfold entry simMatrix
  rw [List.getD_eq_getElem?_getD
        (vecs.map (fun u => vecs.map (fun v => simSq u v))) i,
      List.getElem?_map, List.getD_eq_getElem?_getD vecs i,
      List.getD_eq_getElem?_getD vecs j]
  cases hvi : vecs[i]? with
  | none =>
    simp only [Option.map_none', Option.getD_none, List.getD_nil]
    exact (simSq_zero_left [] _ (by rfl)).symm
  | some u =>
    simp only [Option.map_some', Option.getD_some]
    rw [List.getD_eq_getElem?_getD (List.map (fun v => simSq u v) vecs) j,
        List.getElem?_map]
    cases hvj : vecs[j]? with
    | none => simp [simSq_nil_right]
    | some v => simp

/-- Claim C4: whenever the build step succeeds, the stored similarity
matrix is square of dimension the store size, symmetric, every entry
lies in `[0,1]`, and the diagonal entry of every row is `1` unless that
record's feature vector is the zero vector (zero norm), in which case
the whole row (diagonal included) is `0`.  Entries are stated in the
squared-cosine representation, which preserves `0`, `1`, the bounds and
symmetry exactly (squaring is an order isomorphism of `[0,1]`). -/
theorem claimC4 (r r' : MovieRecommender)
    (hgen : generate_similarity_matrix r = Except.ok r') :
    ∃ M, r'.cosine_sim_matrix = some M ∧
      M.length = r.movie_data.length ∧
      (∀ row ∈ M, row.length = r.movie_data.length) ∧
      (∀ i j, entry M i j = entry M j i) ∧
      (∀ i j, 0 ≤ entry M i j ∧ entry M i j ≤ 1) ∧
      (∀ i,
        (dot ((featureVectors r.movie_data).getD i [])
            ((featureVectors r.movie_data).getD i []) ≠ 0 →
          entry M i i = 1) ∧
        (dot ((featureVectors r.movie_data).getD i [])
            ((featureVectors r.movie_data).getD i []) = 0 →
          ∀ j, entry M i j = 0)) := by
  unfold generate_similarity_matrix at hgen
  split at hgen
  · cases hgen
  · split at hgen
    · cases hgen
    · injection hgen with hr
      subst hr
      refine ⟨simMatrix (featureVectors r.movie_data), rfl, ?_, ?_, ?_, ?_, ?_⟩
      · simp [simMatrix, featureVectors, genreDocs]
      · intro row hrow
        obtain ⟨u, hu, rfl⟩ := List.mem_map.mp hrow
        simp [featureVectors, genreDocs]
      · intro i j
        rw [entry_simMatrix, entry_simMatrix, simSq_comm]
      · intro i j
        rw [entry_simMatrix]
        exact ⟨simSq_nonneg _ _, simSq_le_one _ _⟩
      · intro i
        constructor
        · intro h
          rw [entry_simMatrix]
          exact simSq_self _ h
        · intro h j
          rw [entry_simMatrix]
          exact simSq_zero_left _ _ h

/-- Claim C4, witness: the sample store with its freshly built matrix. -/
theorem claimC4_witness :
    ∃ M, (MovieRecommender.mk "k" c4Store
        (some (simMatrix (featureVectors c4Store)))).cosine_sim_matrix =
          some M ∧
      M.length = c4Store.length ∧
      (∀ row ∈ M, row.length = c4Store.length) ∧
      (∀ i j, entry M i j = entry M j i) ∧
      (∀ i j, 0 ≤ entry M i j ∧ entry M i j ≤ 1) ∧
      (∀ i,
        (dot ((featureVectors c4Store).getD i [])
            ((featureVectors c4Store).getD i []) ≠ 0 →
          entry M i i = 1) ∧
        (dot ((featureVectors c4Store).getD i [])
            ((featureVectors c4Store).getD i []) = 0 →
          ∀ j, entry M i j = 0)) :=
  claimC4 ⟨"k", c4Store, none⟩
    ⟨"k", c4Store, some (simMatrix (featureVectors c4Store))⟩
    (by with_unfolding_all rfl)

/-! ## Stable descending sort properties (towards claim C5) -/

/-- Membership in an insertion. -/
lemma mem_insertDesc (p q : ℕ × ℚ) :
    ∀ l, q ∈ insertDesc p l ↔ q = p ∨ q ∈ l := by
  intro l
  induction l with
  | nil => simp [insertDesc]
  | cons x xs ih =>
    unfold insertDesc
    split
    · simp [List.mem_cons]
    · simp only [List.mem_cons, ih]
      tauto

/-- `scoreOrd` implies a non-strict score inequality. -/
lemma scoreOrd_snd_le {x y : ℕ × ℚ} (h : scoreOrd x y) : y.2 ≤ x.2 := by
  rcases h with h | ⟨h, _⟩
  · exact le_of_lt h
  · exact le_of_eq h.symm

/-- Inserting an element whose index is smaller than that of every
element it ties with preserves the `scoreOrd` pairwise invariant. -/
lemma insertDesc_pairwise (p : ℕ × ℚ) (l : List (ℕ × ℚ))
    (hl : l.Pairwise scoreOrd)
    (hidx : ∀ q ∈ l, p.2 = q.2 → p.1 < q.1) :
    (insertDesc p l).Pairwise scoreOrd := by
  induction l with
  | nil => simp [insertDesc]
  | cons x xs ih =>
    rw [List.pairwise_cons] at hl
    unfold insertDesc
    split
    · rename_i hxp
      apply List.Pairwise.cons
      · intro y hy
        rcases List.mem_cons.mp hy with rfl | hy'
        · rcases lt_or_eq_of_le hxp with hlt | heq
          · exact Or.inl hlt
          · exact Or.inr ⟨heq.symm, hidx y (by simp) heq.symm⟩
        · have hyx : y.2 ≤ x.2 := scoreOrd_snd_le (hl.1 y hy')
          rcases lt_or_eq_of_le (le_trans hyx hxp) with hlt | heq
          · exact Or.inl hlt
          · exact Or.inr ⟨heq.symm, hidx y (by simp [hy']) heq.symm⟩
      · exact List.Pairwise.cons hl.1 hl.2
    · rename_i hxp
      apply List.Pairwise.cons
      · intro y hy
        rcases (mem_insertDesc p y xs).mp hy with rfl | hy'
        · exact Or.inl (lt_of_not_le hxp)
        · exact hl.1 y hy'
      · exact ih hl.2 (fun q hq heq => hidx q (by simp [hq]) heq)

/-- Sorting permutes membership. -/
lemma mem_sortDesc (l : List (ℕ × ℚ)) (q : ℕ × ℚ) :
    q ∈ sortDesc l ↔ q ∈ l := by
  induction l with
  | nil => simp [sortDesc]
  | cons x xs ih =>
    unfold sortDesc
    rw [mem_insertDesc]
    simp [ih]

/-- A stable descending sort of a list with strictly increasing indices
is pairwise ordered by `scoreOrd`: descending scores, ties broken by the
smaller index first. -/
lemma sortDesc_pairwise (l : List (ℕ × ℚ))
    (h : l.Pairwise fun a b => a.1 < b.1) :
    (sortDesc l).Pairwise scoreOrd := by
  induction l with
  | nil => simp [sortDesc]
  | cons x xs ih =>
    rw [List.pairwise_cons] at h
    unfold sortDesc
    apply insertDesc_pairwise
    · exact ih h.2
    · intro q hq _
      exact h.1 q ((mem_sortDesc xs q).mp hq)

/-- `enumerate` yields strictly increasing indices. -/
lemma enum_pairwise_fst (l : List ℚ) :
    l.enum.Pairwise fun a b => a.1 < b.1 := by
  have h := List.pairwise_lt_range l.length
  rw [← List.enum_map_fst l] at h
  exact List.pairwise_map.mp h

/-- Every enumerated pair carries the score at its index. -/
lemma enum_snd (l : List ℚ) (p : ℕ × ℚ) (hp : p ∈ l.enum) :
    p.2 = l.getD p.1 0 := by
  obtain ⟨k, hk, heq⟩ := List.mem_iff_getElem.mp hp
  rw [List.getElem_enum] at heq
  subst heq
  have hk' : k < l.length := by
    simpa [List.enum_length] using hk
  exact (List.getD_eq_getElem l 0 hk').symm

/-- Claim C5: the index list `recommend` returns (for any similarity row
and any `n`) is ranked in strictly descending score order, with tied
scores broken by the smaller store-insertion index first — the total
order a stable descending sort guarantees — and, being a pure function
of its inputs, repeated calls to `recommend` with the same inputs return
identical output. -/
theorem claimC5 (row : List ℚ) (n : ℕ) (r : MovieRecommender)
    (movie_title : String) :
    List.Pairwise
      (fun i j => row.getD j 0 < row.getD i 0 ∨
        (row.getD i 0 = row.getD j 0 ∧ i < j)) (topIndices row n) ∧
    recommend r movie_title n = recommend r movie_title n := by
  constructor
  · unfold topIndices
    have hsorted := sortDesc_pairwise row.enum (enum_pairwise_fst row)
    have hsub : (((sortDesc row.enum).drop 1).take n).Pairwise scoreOrd :=
      (hsorted.sublist (List.drop_sublist 1 _)).sublist (List.take_sublist n _)
    have hmem : (((sortDesc row.enum).drop 1).take n) ⊆ sortDesc row.enum :=
      ((List.take_sublist n _).trans (List.drop_sublist 1 _)).subset
    rw [List.pairwise_map]
    refine hsub.imp_of_mem ?_
    intro a b ha hb hab
    have ha2 : a.2 = row.getD a.1 0 :=
      enum_snd row a ((mem_sortDesc _ a).mp (hmem ha))
    have hb2 : b.2 = row.getD b.1 0 :=
      enum_snd row b ((mem_sortDesc _ b).mp (hmem hb))
    rcases hab with hlt | ⟨heq, hidx⟩
    · exact Or.inl (by rw [← ha2, ← hb2]; exact hlt)
    · exact Or.inr ⟨by rw [← ha2, ← hb2]; exact heq, hidx⟩
  · rfl

/-! ## Vocabulary order properties (towards claim C7) -/

/-- `strLtb` decides the lexicographic order on character lists. -/
lemma strLtb_iff_lex :
    ∀ as bs : List Char, strLtb as bs = true ↔ List.Lex (· < ·) as bs := by
  intro as
  induction as with
  | nil =>
    intro bs
    cases bs with
    | nil =>
      simp only [strLtb, Bool.false_eq_true, false_iff]
      intro h
      cases h
    | cons b bs => simp [strLtb, List.Lex.nil]
  | cons a as ih =>
    intro bs
    cases bs with
    | nil =>
      simp only [strLtb, Bool.false_eq_true, false_iff]
      intro h
      cases h
    | cons b bs =>
      by_cases hab : a < b
      · simp only [strLtb, hab, if_pos, true_iff]
        exact List.Lex.rel hab
      · by_cases hba : b < a
        · simp only [strLtb, hab, hba, if_neg, if_pos, not_false_iff,
            Bool.false_eq_true, false_iff]
          intro h
          cases h with
          | cons h => exact absurd hba (lt_irrefl a)
          | rel h => exact hab h
        · have heq : a = b := le_antisymm (not_lt.mp hba) (not_lt.mp hab)
          subst heq
          simp only [strLtb, lt_irrefl, if_neg, not_false_iff, ih bs]
          constructor
          · intro h
            exact List.Lex.cons h
          · intro h
            cases h with
            | cons h => exact h
            | rel h => exact absurd h (lt_irrefl a)

/-- `strLtb` on the underlying character data decides `<` on strings. -/
lemma strLtb_iff_lt (s t : String) : strLtb s.data t.data = true ↔ s < t := by
  rw [String.lt_iff_toList_lt]
  exact strLtb_iff_lex s.data t.data

/-- `strLeb` decides `≤` on strings. -/
lemma strLeb_iff (s t : String) : strLeb s t = true ↔ s ≤ t := by
  unfold strLeb
  cases hb : strLtb t.data s.data with
  | false =>
    simp only [Bool.not_false, true_iff]
    refine not_lt.mp (fun hlt => ?_)
    rw [(strLtb_iff_lt t s).mpr hlt] at hb
    cases hb
  | true =>
    simp only [Bool.not_true, Bool.false_eq_true, false_iff]
    exact not_le.mpr ((strLtb_iff_lt t s).mp hb)

/-- Membership in a string insertion. -/
lemma mem_insertStr (s x : String) :
    ∀ l, x ∈ insertStr s l ↔ x = s ∨ x ∈ l := by
  intro l
  induction l with
  | nil => simp [insertStr]
  | cons t ts ih =>
    unfold insertStr
    split
    · simp [List.mem_cons]
    · simp only [List.mem_cons, ih]
      tauto

/-- Inserting preserves the sortedness invariant. -/
lemma insertStr_pairwise_le (s : String) (l : List String)
    (hl : l.Pairwise (· ≤ ·)) : (insertStr s l).Pairwise (· ≤ ·) := by
  induction l with
  | nil => simp [insertStr]
  | cons t ts ih =>
    rw [List.pairwise_cons] at hl
    unfold insertStr
    split
    · rename_i hst
      apply List.Pairwise.cons
      · intro y hy
        rcases List.mem_cons.mp hy with rfl | hy'
        · exact (strLeb_iff s y).mp hst
        · exact le_trans ((strLeb_iff s t).mp hst) (hl.1 y hy')
      · exact List.Pairwise.cons hl.1 hl.2
    · rename_i hst
      apply List.Pairwise.cons
      · intro y hy
        rcases (mem_insertStr s y ts).mp hy with heq | hy'
        · have hnle : ¬ s ≤ t := fun hle => hst ((strLeb_iff s t).mpr hle)
          rw [heq]
          exact le_of_lt (not_le.mp hnle)
        · exact hl.1 y hy'
      · exact ih hl.2

/-- The string insertion sort produces an `≤`-sorted list. -/
lemma sortStrings_pairwise_le (l : List String) :
    (sortStrings l).Pairwise (· ≤ ·) := by
  induction l with
  | nil => simp [sortStrings]
  | cons s ss ih =>
    unfold sortStrings
    exact insertStr_pairwise_le s _ ih

/-- Insertion is a permutation of consing. -/
lemma insertStr_perm (s : String) :
    ∀ l, List.Perm (insertStr s l) (s :: l) := by
  intro l
  induction l with
  | nil => exact List.Perm.refl _
  | cons t ts ih =>
    unfold insertStr
    split
    · exact List.Perm.refl _
    · exact (ih.cons t).trans (List.Perm.swap s t ts)

/-- The string insertion sort permutes its input. -/
lemma sortStrings_perm : ∀ l : List String, List.Perm (sortStrings l) l := by
  intro l
  induction l with
  | nil => exact List.Perm.refl _
  | cons s ss ih =>
    unfold sortStrings
    exact (insertStr_perm s _).trans (ih.cons s)

/-- `addTok` preserves freedom from duplicates. -/
lemma addTok_nodup (acc : List String) (t : String) (h : acc.Nodup) :
    (addTok acc t).Nodup := by
  unfold addTok
  split
  · exact h
  · rename_i ht
    rw [List.nodup_append]
    refine ⟨h, List.nodup_singleton t, ?_⟩
    intro a ha hat
    rw [List.mem_singleton] at hat
    subst hat
    exact ht ha

/-- Folding `addTok` preserves freedom from duplicates. -/
lemma foldl_addTok_nodup (d : List String) :
    ∀ acc : List String, acc.Nodup → (d.foldl addTok acc).Nodup := by
  induction d with
  | nil => intro acc h; exact h
  | cons t ts ih =>
    intro acc h
    rw [List.foldl_cons]
    exact ih _ (addTok_nodup acc t h)

/-- The first-seen vocabulary never contains a duplicate token. -/
lemma rawVocab_nodup (docs : List (List String)) : (rawVocab docs).Nodup := by
  suffices h : ∀ acc : List String, acc.Nodup →
      (docs.foldl (fun acc d => d.foldl addTok acc) acc).Nodup from
    h [] List.nodup_nil
  induction docs with
  | nil => intro acc h; exact h
  | cons d ds ih =>
    intro acc h
    rw [List.foldl_cons]
    exact ih _ (foldl_addTok_nodup d acc h)

/-- Membership after `addTok`. -/
lemma mem_addTok (acc : List String) (t x : String) :
    x ∈ addTok acc t ↔ x ∈ acc ∨ x = t := by
  unfold addTok
  split
  · rename_i ht
    constructor
    · exact Or.inl
    · rintro (h | rfl)
      · exact h
      · exact ht
  · simp

/-- Membership after folding `addTok` over one document. -/
lemma mem_foldl_addTok (d : List String) :
    ∀ (acc : List String) (x : String),
      x ∈ d.foldl addTok acc ↔ x ∈ acc ∨ x ∈ d := by
  induction d with
  | nil => simp
  | cons t ts ih =>
    intro acc x
    rw [List.foldl_cons, ih, mem_addTok]
    simp [List.mem_cons]
    tauto

/-- A token is in the first-seen vocabulary exactly when some document
contains it. -/
lemma mem_rawVocab (docs : List (List String)) (x : String) :
    x ∈ rawVocab docs ↔ ∃ d ∈ docs, x ∈ d := by
  suffices h : ∀ acc : List String,
      (x ∈ docs.foldl (fun acc d => d.foldl addTok acc) acc ↔
        x ∈ acc ∨ ∃ d ∈ docs, x ∈ d) by
    simpa using h []
  induction docs with
  | nil => simp
  | cons d ds ih =>
    intro acc
    rw [List.foldl_cons, ih, mem_foldl_addTok]
    simp
    tauto

/-- Claim C7 (amended): the vectorizer assigns column indices in
strictly ascending lexicographic (alphabetical) order of the tokens —
not first-seen order — the vocabulary contains exactly the tokens
occurring in some record's genre text, and the assignment is identical
across repeated calls on the same input. -/
theorem claimC7_amended (records : List Movie) :
    List.Pairwise (· < ·) (vocabOf records) ∧
    (∀ t, t ∈ vocabOf records ↔ ∃ m ∈ records, t ∈ tokenize m.genre) ∧
    vocabOf records = vocabOf records := by
  refine ⟨?_, ?_, rfl⟩
  · have hle : (vocabOf records).Pairwise (· ≤ ·) :=
      sortStrings_pairwise_le _
    have hnd : (vocabOf records).Nodup :=
      ((sortStrings_perm _).nodup_iff).mpr (rawVocab_nodup _)
    exact (hle.and hnd).imp (fun h => lt_of_le_of_ne h.1 h.2)
  · intro t
    unfold vocabOf
    rw [(sortStrings_perm _).mem_iff, mem_rawVocab]
    unfold genreDocs
    constructor
    · rintro ⟨d, hd, htd⟩
      obtain ⟨m, hm, rfl⟩ := List.mem_map.mp hd
      exact ⟨m, hm, htd⟩
    · rintro ⟨m, hm, htm⟩
      exact ⟨tokenize m.genre, List.mem_map.mpr ⟨m, hm, rfl⟩, htm⟩
